import Mathlib

/-!
Verification of the medical-device retailer dashboard (src/Apps/app.py).

The Python module is embedded shallowly:

* module-level globals (`workspace_client`, `postgres_password`,
  `last_password_refresh`, `connection_pool`) become an explicit `AppState`
  that is threaded through the embedded functions;
* external effects (the Databricks SDK, the OAuth token fetch,
  `ConnectionPool(...)`, `pool.connection()`, the chat-completion HTTP call,
  `json.loads`) become oracle parameters recording the outcome the outside
  world would produce, with `none` standing for a raised exception;
* the PostgreSQL database becomes an in-memory table of rows, and each SQL
  SELECT is given its standard semantics (WHERE = filter, LIMIT = take,
  ORDER BY = stable sort, projection = map);
* `time.time()` becomes an integer `now` parameter (the code only compares
  time differences against the constant 900);
* Python dicts keyed by device name become insertion-ordered association
  lists, matching the insertion-order semantics of Python dicts;
* values rendered into HTML are abstracted to the data that is rendered
  (the `connection_status` strings, which are display-only, are omitted).
-/

/-- Python truthiness of an optional string: `None` and `""` are falsy.
Used for `if not postgres_password`, `if not databricks_token`,
`if not event_description`. -/
def pyTruthy : Option String → Bool
  | none => false
  | some s => s != ""

/-- Python `str.strip()`: drop whitespace from both ends.  Defined directly
on the character list so that it evaluates by kernel reduction. -/
def pyStrip (s : String) : String :=
  ⟨((s.data.dropWhile Char.isWhitespace).reverse.dropWhile Char.isWhitespace).reverse⟩

/-- SQL `LOWER` / Python `str.lower()`, defined on the character list. -/
def pyLower (s : String) : String :=
  ⟨s.data.map Char.toLower⟩

/-- The module-level mutable globals of app.py.  `workspace_client` records
whether the Databricks SDK client has been initialized; `connection_pool`
holds an identifier of the live pool object, if any. -/
structure AppState where
  workspace_client : Bool
  postgres_password : Option String
  last_password_refresh : Int
  connection_pool : Option Nat
deriving DecidableEq

/-- The guard of app.py line 52 and line 127:
`postgres_password is None or time.time() - last_password_refresh > 900`. -/
def tokenExpired (s : AppState) (now : Int) : Bool :=
  s.postgres_password.isNone || decide (now - s.last_password_refresh > 900)

/-- Outcomes of the external calls made by `refresh_oauth_token`:
whether `sdk.WorkspaceClient()` succeeds, and the result of
`workspace_client.config.oauth_token().access_token` (`none` = the call
raised an exception). -/
structure RefreshOracle where
  initOk : Bool
  fetchResult : Option String
deriving DecidableEq

/-- Result of a run of `refresh_oauth_token`: the returned boolean, the
updated globals, and whether the refresh branch (the token-fetching path
guarded by the expiry check) was entered. -/
structure RefreshRun where
  ok : Bool
  state : AppState
  refreshed : Bool
deriving DecidableEq

/-- app.py lines 48-73, `refresh_oauth_token`.  Inside the expired branch the
code first ensures the Databricks client exists (initializing it on demand,
app.py lines 24-46 and 56-58), then tries to fetch a fresh token and stamp
`last_password_refresh`. -/
def refresh_oauth_token (s : AppState) (now : Int) (o : RefreshOracle) : RefreshRun :=
  if tokenExpired s now then
    if !s.workspace_client && !o.initOk then
      ⟨false, s, true⟩
    else
      let s1 : AppState := { s with workspace_client := true }
      match o.fetchResult with
      | some tok =>
        ⟨true, { s1 with postgres_password := some tok, last_password_refresh := now }, true⟩
      | none => ⟨false, s1, true⟩
  else
    ⟨true, s, false⟩

/-- Outcomes of the external calls made by `get_connection_pool`: whether the
required PG* environment variables are all set, the oracle for the nested
`refresh_oauth_token` call, and the result of `ConnectionPool(conn_string,...)`
(`none` = the constructor raised). -/
structure PoolOracle where
  envOk : Bool
  refreshOracle : RefreshOracle
  createResult : Option Nat
deriving DecidableEq

/-- Result of a run of `get_connection_pool`: the returned pool (or `None`),
the updated globals, and whether a new `ConnectionPool` was constructed. -/
structure PoolRun where
  pool : Option Nat
  state : AppState
  created : Bool
deriving DecidableEq

/-- app.py lines 75-120, `get_connection_pool`. -/
def get_connection_pool (s : AppState) (now : Int) (o : PoolOracle) : PoolRun :=
  match s.connection_pool with
  | some p => ⟨some p, s, false⟩
  | none =>
    if !o.envOk then ⟨none, s, false⟩
    else
      let r := refresh_oauth_token s now o.refreshOracle
      if !r.ok then ⟨none, r.state, false⟩
      else if !(pyTruthy r.state.postgres_password) then ⟨none, r.state, false⟩
      else
        match o.createResult with
        | some pid => ⟨some pid, { r.state with connection_pool := some pid }, true⟩
        | none => ⟨none, r.state, false⟩

/-- Outcomes of the external calls made by `get_connection`: the oracle for
the nested `get_connection_pool` call and the result of `pool.connection()`
(`none` = the call raised). -/
structure ConnOracle where
  poolOracle : PoolOracle
  connResult : Option Nat
deriving DecidableEq

/-- Result of a run of `get_connection`: the returned connection (or `None`),
the updated globals, whether the stale pool was closed and discarded, the
pool the connection was drawn from (if any was available), and whether a new
pool was constructed along the way. -/
structure ConnRun where
  conn : Option Nat
  state : AppState
  closedPool : Bool
  poolReturned : Option Nat
  created : Bool
deriving DecidableEq

/-- app.py lines 122-142, `get_connection`.  The function first discards the
pool when the token is absent or expired, then delegates to
`get_connection_pool` and draws a connection from the result. -/
def get_connection (s : AppState) (now : Int) (o : ConnOracle) : ConnRun :=
  let closeNeeded := tokenExpired s now && s.connection_pool.isSome
  let s1 : AppState := if closeNeeded then { s with connection_pool := none } else s
  let pr := get_connection_pool s1 now o.poolOracle
  let conn : Option Nat :=
    match pr.pool, o.connResult with
    | some _, some c => some c
    | _, _ => none
  ⟨conn, pr.state, closeNeeded, pr.pool, pr.created⟩

theorem tokenExpired_iff (s : AppState) (now : Int) :
    tokenExpired s now = true ↔
      (s.postgres_password = none ∨ now - s.last_password_refresh > 900) := by
  simp [tokenExpired, Option.isNone_iff_eq_none]

/-- C1: `refresh_oauth_token` performs a time-based expiry check: the
token-fetching refresh path is taken iff the stored password is `None` or
more than 900 seconds have elapsed since `last_password_refresh`; in every
other case it returns `True` and leaves the stored token and the refresh
timestamp (and the rest of the globals) unchanged. -/
theorem refresh_oauth_token_time_check (s : AppState) (now : Int) (o : RefreshOracle) :
    ((refresh_oauth_token s now o).refreshed = true ↔
      (s.postgres_password = none ∨ now - s.last_password_refresh > 900))
    ∧ (¬(s.postgres_password = none ∨ now - s.last_password_refresh > 900) →
        (refresh_oauth_token s now o).ok = true
        ∧ (refresh_oauth_token s now o).state = s) := by
  rw [← tokenExpired_iff]
  by_cases h : tokenExpired s now = true
  · have hr : (refresh_oauth_token s now o).refreshed = true := by
      simp only [refresh_oauth_token, h, if_true]
      split
      · rfl
      · cases o.fetchResult <;> rfl
    exact ⟨⟨fun _ => h, fun _ => hr⟩, fun hc => absurd h hc⟩
  · have hb : tokenExpired s now = false := by
      cases hx : tokenExpired s now
      · rfl
      · exact absurd hx h
    constructor
    · simp [refresh_oauth_token, hb, h]
    · intro _
      simp [refresh_oauth_token, hb]

/-- Witness for C1 at a concrete fresh state: password present, 100 seconds
elapsed, so the call is a no-op returning `True`. -/
theorem refresh_oauth_token_time_check_witness :
    (refresh_oauth_token ⟨true, some "tok", 0, none⟩ 100 ⟨true, some "new"⟩).ok = true
    ∧ (refresh_oauth_token ⟨true, some "tok", 0, none⟩ 100 ⟨true, some "new"⟩).state
        = ⟨true, some "tok", 0, none⟩ :=
  (refresh_oauth_token_time_check ⟨true, some "tok", 0, none⟩ 100 ⟨true, some "new"⟩).2
    (by decide)

/-- C2: connection-pool (re)creation is lazy.  `get_connection` closes and
discards the existing pool exactly when a pool exists and the token is absent
or older than 900 seconds; `get_connection_pool` constructs a new
`ConnectionPool` only when `connection_pool` is `None`; and whenever a pool
already exists and the token is fresh, `get_connection` returns that same
pool object unchanged and constructs nothing. -/
theorem connection_pool_lazy (s : AppState) (now : Int) (o : ConnOracle) :
    ((get_connection s now o).closedPool = true ↔
      (s.connection_pool.isSome = true
        ∧ (s.postgres_password = none ∨ now - s.last_password_refresh > 900)))
    ∧ ((get_connection_pool s now o.poolOracle).created = true → s.connection_pool = none)
    ∧ (∀ p, s.connection_pool = some p →
        ¬(s.postgres_password = none ∨ now - s.last_password_refresh > 900) →
        (get_connection s now o).poolReturned = some p
        ∧ (get_connection s now o).created = false
        ∧ (get_connection s now o).state = s) := by
  refine ⟨?_, ?_, ?_⟩
  · show (tokenExpired s now && s.connection_pool.isSome) = true ↔ _
    rw [Bool.and_eq_true, tokenExpired_iff]
    tauto
  · cases h : s.connection_pool with
    | some p => intro hc; simp [get_connection_pool, h] at hc
    | none => intro _; rfl
  · intro p hp hfresh
    have hb : tokenExpired s now = false := by
      cases hx : tokenExpired s now
      · rfl
      · exact absurd ((tokenExpired_iff s now).mp hx) hfresh
    refine ⟨?_, ?_, ?_⟩ <;>
      simp [get_connection, get_connection_pool, hb, hp]

/-- Witness for C2 at a concrete state: pool `7` exists and the token is 100
seconds old, so `get_connection` hands back pool `7` without constructing or
discarding anything. -/
theorem connection_pool_lazy_witness :
    (get_connection ⟨true, some "tok", 0, some 7⟩ 100
        ⟨⟨true, ⟨true, some "new"⟩, some 8⟩, some 9⟩).poolReturned = some 7
    ∧ (get_connection ⟨true, some "tok", 0, some 7⟩ 100
        ⟨⟨true, ⟨true, some "new"⟩, some 8⟩, some 9⟩).created = false
    ∧ (get_connection ⟨true, some "tok", 0, some 7⟩ 100
        ⟨⟨true, ⟨true, some "new"⟩, some 8⟩, some 9⟩).state
      = ⟨true, some "tok", 0, some 7⟩ :=
  (connection_pool_lazy ⟨true, some "tok", 0, some 7⟩ 100
      ⟨⟨true, ⟨true, some "new"⟩, some 8⟩, some 9⟩).2.2 7 rfl (by decide)

/-- A row of `{schema}.synced_order_table_feallstars` (the columns the app
touches).  `device_name` is optional because SQL columns are nullable and
`get_unique_device_names` filters falsy device names. -/
structure OrderTableRow where
  retailer_name : String
  order_id : Int
  order_date : String
  device_name : Option String
  quantity : Int
deriving DecidableEq

/-- A fetched tuple of the orders SELECT (app.py lines 197-204):
`order_id, order_date, device_name, quantity`. -/
structure OrderRow where
  order_id : Int
  order_date : String
  device_name : Option String
  quantity : Int
deriving DecidableEq

/-- The dictionary built per row at app.py lines 209-214. -/
structure Order where
  order_id : Int
  order_date : String
  device_name : Option String
  quantity : Int
deriving DecidableEq

/-- The dict constructed from one fetched row (app.py lines 209-214). -/
def rowToOrder (row : OrderRow) : Order :=
  ⟨row.order_id, row.order_date, row.device_name, row.quantity⟩

/-- The conversion loop of app.py lines 207-214: one appended dict per
fetched row, in fetch order. -/
def ordersFromRows (results : List OrderRow) : List Order :=
  results.map rowToOrder

/-- Projection of an orders dict back onto the fetched tuple shape. -/
def orderToRow (o : Order) : OrderRow :=
  ⟨o.order_id, o.order_date, o.device_name, o.quantity⟩

/-- Semantics of the orders SELECT (app.py lines 197-203):
`WHERE LOWER(retailer_name) = LOWER(%s)` then `LIMIT 100`, projecting the
four selected columns.  There is no ORDER BY, so the 100 rows kept are the
first matches in table order. -/
def runOrdersQuery (table : List OrderTableRow) (retailer_name : String) : List OrderRow :=
  ((table.filter fun r => pyLower r.retailer_name == pyLower retailer_name).take 100).map
    fun r => OrderRow.mk r.order_id r.order_date r.device_name r.quantity

/-- An exception raised while querying: the two classes caught separately at
app.py lines 217-222 and 267-272 (`psycopg.Error` and any other
`Exception`). -/
inductive DBErr where
  | psycopgError (msg : String)
  | otherError (msg : String)
deriving DecidableEq

/-- app.py lines 186-222, `get_retailer_orders`.  `conn` is the connection
delivered by `get_connection` together with the table it reads (`none` means
no connection was available, in which case the `with` statement raises and
the broad except returns `[]`); `raised` injects an exception thrown while
executing or fetching the query.  The second component counts how many times
the query was executed. -/
def get_retailer_orders (conn : Option (List OrderTableRow)) (raised : Option DBErr)
    (retailer_name : String) : List Order × Nat :=
  match conn with
  | none => ([], 0)
  | some table =>
    match raised with
    | some _ => ([], 1)
    | none => (ordersFromRows (runOrdersQuery table (pyStrip retailer_name)), 1)

/-- C7: order rows are passed through verbatim.  Projecting every returned
dict back onto its four columns recovers exactly the fetched rows: same
values, same order, none dropped, none added. -/
theorem get_retailer_orders_verbatim (results : List OrderRow) :
    (ordersFromRows results).map orderToRow = results
    ∧ (ordersFromRows results).length = results.length := by
  constructor
  · simp only [ordersFromRows, List.map_map]
    have h : orderToRow ∘ rowToOrder = id := by
      funext r
      rfl
    rw [h, List.map_id]
  · simp [ordersFromRows]

/-- A fetched tuple of the adverse-events SELECT (app.py lines 241-246):
`device_name, event_date, adverse_event_description, severity_level`.
A row whose device_name is NULL never satisfies the `IN` clause, so fetched
rows carry a plain string key. -/
structure AERow where
  device_name : String
  event_date : String
  adverse_event_description : String
  severity_level : String
deriving DecidableEq

/-- The dictionary appended per row at app.py lines 258-262 (the grouping
drops the `device_name` column into the key). -/
structure AEvent where
  event_date : String
  adverse_event_description : String
  severity_level : String
deriving DecidableEq

/-- Type coercion applied to one fetched row (app.py lines 258-262). -/
def eventOfRow (row : AERow) : AEvent :=
  ⟨row.event_date, row.adverse_event_description, row.severity_level⟩

/-- The `ORDER BY event_date DESC, severity_level` comparator of the
adverse-events SELECT. -/
def aeRowLE (a b : AERow) : Bool :=
  decide (b.event_date < a.event_date)
    || (a.event_date == b.event_date && decide (a.severity_level ≤ b.severity_level))

/-- Semantics of the adverse-events SELECT (app.py lines 241-247):
`WHERE device_name IN (placeholders)` then
`ORDER BY event_date DESC, severity_level`, with the bound parameters
`names`. -/
def runAdverseQuery (table : List AERow) (names : List String) : List AERow :=
  (table.filter fun r => names.contains r.device_name).mergeSort aeRowLE

/-- `device_names[:1000]`, app.py line 236. -/
def limitedDeviceNames (device_names : List String) : List String :=
  device_names.take 1000

/-- Lookup in a Python dict modelled as an insertion-ordered association
list. -/
def dictGet (d : List (String × List AEvent)) (k : String) : Option (List AEvent) :=
  match d with
  | [] => none
  | (k1, v) :: rest => if k1 = k then some v else dictGet rest k

/-- `d.get(k, [])`. -/
def dictGetD (d : List (String × List AEvent)) (k : String) : List AEvent :=
  (dictGet d k).getD []

/-- The keys of the dict, in insertion order. -/
def dictKeys (d : List (String × List AEvent)) : List String :=
  d.map Prod.fst

/-- One iteration of the grouping loop (app.py lines 253-263): ensure the
key exists, then append the event to its list. -/
def insertEvent (acc : List (String × List AEvent)) (dev : String) (e : AEvent) :
    List (String × List AEvent) :=
  if acc.any fun p => p.1 == dev then
    acc.map fun p => if p.1 == dev then (p.1, p.2 ++ [e]) else p
  else
    acc ++ [(dev, [e])]

/-- The grouping loop of app.py lines 251-263 over the fetched rows. -/
def groupByDevice (results : List AERow) : List (String × List AEvent) :=
  results.foldl (fun acc row => insertEvent acc row.device_name (eventOfRow row)) []

/-- app.py lines 224-272, `get_device_adverse_events`, with the same
connection/exception modelling as `get_retailer_orders`.  The second
component counts query executions. -/
def get_device_adverse_events (conn : Option (List AERow)) (raised : Option DBErr)
    (device_names : List String) : List (String × List AEvent) × Nat :=
  if device_names.isEmpty then ([], 0)
  else
    match conn with
    | none => ([], 0)
    | some table =>
      match raised with
      | some _ => ([], 1)
      | none => (groupByDevice (runAdverseQuery table (limitedDeviceNames device_names)), 1)

/-- `order['device_name']` when truthy (app.py line 276's filter). -/
def truthyName : Option String → Option String
  | none => none
  | some s => if s == "" then none else some s

/-- app.py lines 274-276, `get_unique_device_names`:
`list(set([order['device_name'] for order in orders if order['device_name']]))`.
The CPython set iteration order is unspecified; `dedup` realizes one
duplicate-free enumeration of that set. -/
def get_unique_device_names (orders : List Order) : List String :=
  (orders.filterMap fun o => truthyName o.device_name).dedup

/-- app.py lines 476-483, the `load_adverse_events` callback. -/
def load_adverse_events (conn : Option (List AERow)) (raised : Option DBErr)
    (orders_data : List Order) : List (String × List AEvent) :=
  if orders_data.isEmpty then []
  else (get_device_adverse_events conn raised (get_unique_device_names orders_data)).1

/-- app.py lines 595-606, the `display_adverse_event_details` callback,
abstracted to the event it renders: `none` is the empty string, `some e` is
the detail card built from `e`. -/
def display_adverse_event_details (selected_event_index : Option Nat)
    (adverse_events_data : List (String × List AEvent)) (device_name : String) :
    Option AEvent :=
  match selected_event_index with
  | none => none
  | some i =>
    if adverse_events_data.isEmpty then none
    else
      let events := dictGetD adverse_events_data device_name
      if events.length ≤ i then none
      else events[i]?

theorem dictGet_isSome_iff_any (acc : List (String × List AEvent)) (k : String) :
    (dictGet acc k).isSome = (acc.any fun p => p.1 == k) := by
  induction acc with
  | nil => rfl
  | cons hd tl ih =>
    obtain ⟨k1, v⟩ := hd
    by_cases h : k1 = k <;> simp [dictGet, h, ih]

theorem dictGet_map_update (acc : List (String × List AEvent)) (dev : String) (e : AEvent)
    (k : String) :
    dictGet (acc.map fun p => if p.1 == dev then (p.1, p.2 ++ [e]) else p) k
      = if k = dev then (dictGet acc dev).map (fun v => v ++ [e]) else dictGet acc k := by
  induction acc with
  | nil => simp [dictGet]
  | cons hd tl ih =>
    obtain ⟨k1, v⟩ := hd
    rw [List.map_cons]
    simp only [beq_iff_eq] at ih
    by_cases hkd : k1 = dev
    · rw [if_pos (beq_iff_eq.mpr hkd)]
      by_cases hk : k1 = k
      · subst hkd
        subst hk
        simp [dictGet]
      · have hkne : ¬k = dev := fun hx => hk (hkd.trans hx.symm)
        simp [dictGet, hk, hkne, ih]
    · rw [if_neg (by simp [hkd])]
      by_cases hk : k1 = k
      · subst hk
        simp [dictGet, hkd]
      · simp [dictGet, hk, hkd, ih]

theorem dictGet_append_new (acc : List (String × List AEvent)) (dev : String) (e : AEvent)
    (k : String) (h : (acc.any fun p => p.1 == dev) = false) :
    dictGet (acc ++ [(dev, [e])]) k
      = if k = dev then some [e] else dictGet acc k := by
  induction acc with
  | nil => simp [dictGet, eq_comm]
  | cons hd tl ih =>
    obtain ⟨k1, v⟩ := hd
    simp only [List.any_cons, Bool.or_eq_false_iff] at h
    have hk1 : ¬k1 = dev := by
      intro hx
      rw [hx] at h
      simp at h
    by_cases hk : k1 = k
    · subst hk
      have hkd : ¬k1 = dev := hk1
      simp [dictGet, hkd]
    · simp [dictGet, hk, ih h.2]

theorem dictGetD_insertEvent (acc : List (String × List AEvent)) (dev : String) (e : AEvent)
    (k : String) :
    dictGetD (insertEvent acc dev e) k
      = if k = dev then dictGetD acc k ++ [e] else dictGetD acc k := by
  unfold insertEvent
  cases h : (acc.any fun p => p.1 == dev) with
  | true =>
    have hsome : (dictGet acc dev).isSome = true := by
      rw [dictGet_isSome_iff_any, h]
    obtain ⟨v, hv⟩ := Option.isSome_iff_exists.mp hsome
    unfold dictGetD
    simp only [h, if_true, dictGet_map_update]
    by_cases hk : k = dev
    · subst hk
      simp [hv]
    · simp [hk]
  | false =>
    unfold dictGetD
    simp only [h, Bool.false_eq_true, if_false, dictGet_append_new acc dev e k h]
    by_cases hk : k = dev
    · subst hk
      have hnone : dictGet acc k = none := by
        have hx := dictGet_isSome_iff_any acc k
        rw [h] at hx
        exact Option.not_isSome_iff_eq_none.mp (by rw [hx]; simp)
      simp [hnone]
    · simp [hk]

theorem dictGetD_groupLoop (rows : List AERow) (acc : List (String × List AEvent))
    (k : String) :
    dictGetD (rows.foldl (fun a row => insertEvent a row.device_name (eventOfRow row)) acc) k
      = dictGetD acc k ++ (rows.filter fun r => r.device_name == k).map eventOfRow := by
  induction rows generalizing acc with
  | nil => simp
  | cons r rs ih =>
    rw [List.foldl_cons, ih, dictGetD_insertEvent]
    by_cases h : k = r.device_name
    · have hb : (r.device_name == k) = true := by simp [h.symm]
      simp [h, hb, List.append_assoc]
    · have hb : (r.device_name == k) = false := by
        simp
        intro hx
        exact absurd hx.symm h
      simp [h, hb]

theorem mem_dictKeys_insertEvent (acc : List (String × List AEvent)) (dev k : String)
    (e : AEvent) :
    k ∈ dictKeys (insertEvent acc dev e) ↔ k ∈ dictKeys acc ∨ k = dev := by
  unfold insertEvent dictKeys
  cases h : (acc.any fun p => p.1 == dev) with
  | true =>
    simp only [h, if_true]
    have hkeys : (acc.map fun p => if p.1 == dev then (p.1, p.2 ++ [e]) else p).map Prod.fst
        = acc.map Prod.fst := by
      rw [List.map_map]
      apply List.map_congr_left
      intro p _
      by_cases hp : p.1 = dev <;> simp [hp]
    rw [hkeys]
    have hdev : dev ∈ acc.map Prod.fst := by
      obtain ⟨p, hp, hpd⟩ := List.any_eq_true.mp h
      exact List.mem_map.mpr ⟨p, hp, by simpa using hpd⟩
    constructor
    · exact Or.inl
    · rintro (hk | rfl)
      · exact hk
      · exact hdev
  | false =>
    simp only [h, Bool.false_eq_true, if_false]
    simp

/-- The device keys produced by the grouping loop are exactly the device
names of the rows it consumed (plus those already in the accumulator). -/
theorem mem_dictKeys_groupLoop (rows : List AERow) (acc : List (String × List AEvent))
    (k : String) :
    k ∈ dictKeys (rows.foldl (fun a row => insertEvent a row.device_name (eventOfRow row)) acc)
      ↔ k ∈ dictKeys acc ∨ ∃ r ∈ rows, r.device_name = k := by
  induction rows generalizing acc with
  | nil => simp
  | cons r rs ih =>
    rw [List.foldl_cons, ih, mem_dictKeys_insertEvent]
    simp only [List.mem_cons]
    constructor
    · rintro ((hk | rfl) | ⟨x, hx, hxd⟩)
      · exact Or.inl hk
      · exact Or.inr ⟨r, Or.inl rfl, rfl⟩
      · exact Or.inr ⟨x, Or.inr hx, hxd⟩
    · rintro (hk | ⟨x, (rfl | hx), hxd⟩)
      · exact Or.inl (Or.inl hk)
      · exact Or.inl (Or.inr hxd.symm)
      · exact Or.inr ⟨x, hx, hxd⟩

/-- C3: the grouping applied to the fetched adverse-event rows is pure
grouping plus type coercion.  For every device key, the stored list is
exactly the fetched rows with that `device_name`, coerced by `eventOfRow`
and in their fetched relative order (so each fetched row lands exactly once,
unmodified, under its own device key); and a key exists iff some fetched row
has that device name. -/
theorem get_device_adverse_events_grouping (results : List AERow) (k : String) :
    dictGetD (groupByDevice results) k
      = (results.filter fun r => r.device_name == k).map eventOfRow
    ∧ (k ∈ dictKeys (groupByDevice results) ↔ ∃ r ∈ results, r.device_name = k) := by
  constructor
  · have h := dictGetD_groupLoop results [] k
    unfold groupByDevice
    simpa [dictGetD, dictGet] using h
  · have h := mem_dictKeys_groupLoop results [] k
    unfold groupByDevice
    simpa [dictKeys] using h

/-- C4: database errors are caught broadly with no retry or recovery.
Whatever exception is raised while querying (either error class),
`get_retailer_orders` returns the empty list and `get_device_adverse_events`
returns the empty dict, each after exactly at most one execution of its
query, and both return normally instead of re-raising. -/
theorem db_errors_swallowed (tableO : List OrderTableRow) (tableA : List AERow)
    (e1 e2 : DBErr) (retailer_name : String) (device_names : List String) :
    get_retailer_orders (some tableO) (some e1) retailer_name = ([], 1)
    ∧ (get_device_adverse_events (some tableA) (some e2) device_names).1 = []
    ∧ (get_device_adverse_events (some tableA) (some e2) device_names).2 ≤ 1 := by
  refine ⟨rfl, ?_, ?_⟩ <;>
    · unfold get_device_adverse_events
      split <;> simp

/-- C8: result sizes are silently capped.  `get_retailer_orders` returns at
most 100 orders (the query carries `LIMIT 100`), and
`get_device_adverse_events` computes the same result from `device_names` and
from `device_names[:1000]` — names beyond the 1000th are never bound and
cannot influence the outcome. -/
theorem result_sizes_capped (conn : Option (List OrderTableRow))
    (connA : Option (List AERow)) (raised raisedA : Option DBErr)
    (retailer_name : String) (device_names : List String) :
    (get_retailer_orders conn raised retailer_name).1.length ≤ 100
    ∧ get_device_adverse_events connA raisedA device_names
        = get_device_adverse_events connA raisedA (device_names.take 1000) := by
  constructor
  · match conn with
    | none => simp [get_retailer_orders]
    | some table =>
      match raised with
      | some _ => simp [get_retailer_orders]
      | none =>
        simp only [get_retailer_orders, ordersFromRows, runOrdersQuery, List.length_map]
        exact List.length_take_le 100 _
  · cases device_names with
    | nil => rfl
    | cons n ns =>
      unfold get_device_adverse_events limitedDeviceNames
      rw [List.take_take]
      simp

theorem truthyName_eq_some (x : Option String) (s : String) :
    truthyName x = some s ↔ (x = some s ∧ s ≠ "") := by
  cases x with
  | none => simp [truthyName]
  | some t =>
    by_cases h : t = ""
    · subst h
      constructor
      · intro hx
        exact Option.noConfusion (show (none : Option String) = some s from hx)
      · rintro ⟨hx, hs⟩
        have hx2 : "" = s := by injection hx
        exact absurd hx2.symm hs
    · simp only [truthyName]
      rw [if_neg (show ¬((t == "") = true) by simp [h])]
      constructor
      · intro hx
        have hx2 : t = s := by injection hx
        exact ⟨hx, fun hs => h (hx2.trans hs)⟩
      · exact fun hp => hp.1

/-- C9: `get_unique_device_names` returns a duplicate-free list: no element
occurs twice, and a string is in the result iff it is non-empty and is the
`device_name` of some input order (empty and `None` device names are
excluded by the comprehension's truthiness filter). -/
theorem get_unique_device_names_spec (orders : List Order) :
    (get_unique_device_names orders).Nodup
    ∧ ∀ s, s ∈ get_unique_device_names orders ↔
        (s ≠ "" ∧ ∃ o ∈ orders, o.device_name = some s) := by
  constructor
  · exact List.nodup_dedup _
  · intro s
    unfold get_unique_device_names
    rw [List.mem_dedup, List.mem_filterMap]
    constructor
    · rintro ⟨o, ho, hto⟩
      obtain ⟨hdev, hne⟩ := (truthyName_eq_some o.device_name s).mp hto
      exact ⟨hne, o, ho, hdev⟩
    · rintro ⟨hne, o, ho, hdev⟩
      exact ⟨o, ho, (truthyName_eq_some o.device_name s).mpr ⟨hdev, hne⟩⟩

/-- C10: `display_adverse_event_details` never indexes out of bounds.  If the
selection is `None`, the stored mapping is empty, or the selected index is
not below the number of events stored for the dropdown's device (in
particular when the device has no entry), the callback renders the empty
string; otherwise it renders exactly the event at the selected index. -/
theorem display_adverse_event_details_safe (selected_event_index : Option Nat)
    (adverse_events_data : List (String × List AEvent)) (device_name : String) :
    ((selected_event_index = none
        ∨ adverse_events_data = []
        ∨ (∃ i, selected_event_index = some i
            ∧ (dictGetD adverse_events_data device_name).length ≤ i)) →
      display_adverse_event_details selected_event_index adverse_events_data device_name
        = none)
    ∧ (∀ i, selected_event_index = some i → adverse_events_data ≠ [] →
        i < (dictGetD adverse_events_data device_name).length →
        display_adverse_event_details selected_event_index adverse_events_data device_name
          = (dictGetD adverse_events_data device_name)[i]?) := by
  constructor
  · rintro (rfl | rfl | ⟨i, rfl, hlen⟩)
    · rfl
    · cases selected_event_index <;> rfl
    · unfold display_adverse_event_details
      by_cases hemp : adverse_events_data.isEmpty
      · simp [hemp]
      · simp [hemp, hlen]
  · intro i hi hne hlt
    subst hi
    unfold display_adverse_event_details
    have hemp : adverse_events_data.isEmpty = false := by
      cases adverse_events_data
      · exact absurd rfl hne
      · rfl
    simp [hemp, Nat.not_le.mpr hlt]

/-- Witness for C10: a mapping with two events for device `dev`; selecting
index 1 renders the second event. -/
theorem display_adverse_event_details_safe_witness :
    display_adverse_event_details (some 1)
        [("dev", [⟨"2024-01-02", "a", "High"⟩, ⟨"2024-01-01", "b", "Low"⟩])] "dev"
      = some ⟨"2024-01-01", "b", "Low"⟩ := by
  have h := (display_adverse_event_details_safe (some 1)
      [("dev", [⟨"2024-01-02", "a", "High"⟩, ⟨"2024-01-01", "b", "Low"⟩])] "dev").2 1 rfl
      (by decide) (by decide)
  rw [h]
  decide

/-- C6: the adverse events shown belong to the searched retailer's orders.
`load_adverse_events` queries only the unique device names of the loaded
orders, and the `IN` clause keeps only rows with those device names, so
every key of the resulting mapping is the `device_name` of some order in the
current orders data. -/
theorem load_adverse_events_keys_from_orders (conn : Option (List AERow))
    (raised : Option DBErr) (orders_data : List Order) (d : String)
    (h : d ∈ dictKeys (load_adverse_events conn raised orders_data)) :
    ∃ o ∈ orders_data, o.device_name = some d := by
  unfold load_adverse_events at h
  cases hemp : orders_data.isEmpty with
  | true =>
    rw [if_pos hemp] at h
    simp [dictKeys] at h
  | false =>
    rw [if_neg (by simp [hemp])] at h
    unfold get_device_adverse_events at h
    cases hnemp : (get_unique_device_names orders_data).isEmpty with
    | true =>
      rw [if_pos hnemp] at h
      simp [dictKeys] at h
    | false =>
      rw [if_neg (by simp [hnemp])] at h
      cases conn with
      | none => simp [dictKeys] at h
      | some table =>
        cases raised with
        | some e => simp [dictKeys] at h
        | none =>
          have h3 := (mem_dictKeys_groupLoop
            (runAdverseQuery table (limitedDeviceNames (get_unique_device_names orders_data)))
            [] d).mp (by exact h)
          rcases h3 with h3 | ⟨r, hr, hrd⟩
          · simp [dictKeys] at h3
          · rw [runAdverseQuery, List.mem_mergeSort, List.mem_filter] at hr
            obtain ⟨hrt, hrc⟩ := hr
            have hdn : r.device_name ∈ get_unique_device_names orders_data := by
              have hmem : r.device_name
                  ∈ limitedDeviceNames (get_unique_device_names orders_data) := by
                simpa using hrc
              exact List.take_subset 1000 _ (by simpa [limitedDeviceNames] using hmem)
            rw [← hrd]
            unfold get_unique_device_names at hdn
            rw [List.mem_dedup, List.mem_filterMap] at hdn
            obtain ⟨o, ho, hto⟩ := hdn
            obtain ⟨hdev, hne⟩ := (truthyName_eq_some o.device_name r.device_name).mp hto
            exact ⟨o, ho, hdev⟩

/-- Witness for C6: one order for device `DeviceA` and one adverse-event row
for the same device; the key `DeviceA` of the loaded mapping is the device
name of that order. -/
theorem load_adverse_events_keys_from_orders_witness :
    ∃ o ∈ [Order.mk 1 "2024-01-01" (some "DeviceA") 2], o.device_name = some "DeviceA" :=
  load_adverse_events_keys_from_orders
    (some [⟨"DeviceA", "2024-01-02", "overheat", "High"⟩]) none
    [⟨1, "2024-01-01", some "DeviceA", 2⟩] "DeviceA"
    (by simp [load_adverse_events, get_device_adverse_events, get_unique_device_names,
      truthyName, runAdverseQuery, limitedDeviceNames, groupByDevice, insertEvent,
      dictKeys, eventOfRow, List.mergeSort_singleton])

/-- JSON values, the possible results of `json.loads`. -/
inductive JVal where
  | null : JVal
  | bool (b : Bool) : JVal
  | num (n : Int) : JVal
  | str (s : String) : JVal
  | arr (xs : List JVal) : JVal
  | obj (fields : List (String × JVal)) : JVal

/-- The `data` value of a successful analysis: either the JSON-parsed
response content (app.py line 178) or `{'analysis': content}` when the
content is not valid JSON (app.py line 181). -/
inductive AEData where
  | jsonData (v : JVal) : AEData
  | analysisText (content : String) : AEData

/-- The dict returned by `analyze_adverse_event_with_databricks`: either
`{'error': msg}` or `{'success': True, 'data': d}`. -/
inductive AEResult where
  | error (msg : String) : AEResult
  | success (d : AEData) : AEResult

/-- `'error' in result`: the error dict is the only result shape carrying an
`'error'` key. -/
def AEResult.isError : AEResult → Bool
  | .error _ => true
  | .success _ => false

/-- Outcomes of the external calls made by
`analyze_adverse_event_with_databricks`: the chat-completion response
content (`none` = the call raised an exception) and the result of
`json.loads(content)` (`none` = `JSONDecodeError`). -/
structure AnalyzeOracle where
  callResult : Option String
  parsed : Option JVal

/-- Result of a run of `analyze_adverse_event_with_databricks`: the returned
dict and the prompt of the HTTP request, or `none` when no HTTP call was
made. -/
structure AnalyzeRun where
  result : AEResult
  request : Option String

/-- app.py lines 148-184, `analyze_adverse_event_with_databricks`.  The token
guard `if not databricks_token` treats an unset and an empty
`DATABRICKS_TOKEN` alike. -/
def analyze_adverse_event_with_databricks (token : Option String)
    (event_description : String) (o : AnalyzeOracle) : AnalyzeRun :=
  if !(pyTruthy token) then
    ⟨.error "DATABRICKS_TOKEN environment variable not set", none⟩
  else
    let prompt :=
      "extract root cause, actions to be taken, and affected devices from "
        ++ event_description
    match o.callResult with
    | none => ⟨.error "Failed to analyze adverse event", some prompt⟩
    | some content =>
      match o.parsed with
      | some v => ⟨.success (.jsonData v), some prompt⟩
      | none => ⟨.success (.analysisText content), some prompt⟩

/-- What the `analyze_adverse_event` callback renders into
`analysis-loading`. -/
inductive CallbackMsg where
  | promptEmpty : CallbackMsg
  | errorShown (msg : String) : CallbackMsg
  | successShown : CallbackMsg

/-- app.py lines 649-671, the `analyze_adverse_event` callback: the pair of
the value stored in `analysis-results-store` and the message shown. -/
def analyze_adverse_event (event_description : Option String)
    (token : Option String) (o : AnalyzeOracle) : Option AEResult × CallbackMsg :=
  if !(pyTruthy event_description) || pyStrip (event_description.getD "") == "" then
    (none, .promptEmpty)
  else
    let run := analyze_adverse_event_with_databricks token
      (pyStrip (event_description.getD "")) o
    match run.result with
    | .error m => (none, .errorShown m)
    | .success _ => (some run.result, .successShown)

/-- C5: the AI-summary path fails only by returning an error value.  With a
falsy `DATABRICKS_TOKEN` the function returns the error dict without making
the HTTP call; an exception during the call also yields an error dict;
otherwise the result is `{'success': True, 'data': d}` with `d` the parsed
JSON content, or `{'analysis': content}` when the content is not valid JSON.
The `analyze_adverse_event` callback, given a non-blank description, stores
`None` and shows an error message exactly when the result carries an
`'error'` key. -/
theorem analyze_adverse_event_error_paths (token : Option String) (desc : String)
    (o : AnalyzeOracle) :
    (pyTruthy token = false →
      (analyze_adverse_event_with_databricks token desc o).result
          = .error "DATABRICKS_TOKEN environment variable not set"
        ∧ (analyze_adverse_event_with_databricks token desc o).request = none)
    ∧ (pyTruthy token = true → o.callResult = none →
        (analyze_adverse_event_with_databricks token desc o).result
          = .error "Failed to analyze adverse event")
    ∧ (∀ content, pyTruthy token = true → o.callResult = some content →
        (analyze_adverse_event_with_databricks token desc o).result
          = .success (match o.parsed with
              | some v => AEData.jsonData v
              | none => AEData.analysisText content))
    ∧ (∀ d, pyTruthy (some d) = true → pyStrip d ≠ "" →
        (((analyze_adverse_event (some d) token o).1 = none
            ∧ ∃ m, (analyze_adverse_event (some d) token o).2 = .errorShown m)
          ↔ (analyze_adverse_event_with_databricks token (pyStrip d) o).result.isError
              = true)) := by
  refine ⟨?_, ?_, ?_, ?_⟩
  · intro ht
    unfold analyze_adverse_event_with_databricks
    rw [ht]
    exact ⟨rfl, rfl⟩
  · intro ht hc
    unfold analyze_adverse_event_with_databricks
    rw [ht, hc]
    rfl
  · intro content ht hc
    unfold analyze_adverse_event_with_databricks
    rw [ht, hc]
    cases o.parsed <;> rfl
  · intro d ht hs
    have hbl : (pyStrip d == "") = false := by
      simpa using hs
    unfold analyze_adverse_event
    rw [ht]
    simp only [Option.getD_some, hbl, Bool.not_true, Bool.or_self]
    cases hres : (analyze_adverse_event_with_databricks token (pyStrip d) o).result with
    | error m =>
      simp only [hres, AEResult.isError]
      exact ⟨fun _ => by trivial, fun _ => ⟨rfl, m, rfl⟩⟩
    | success dd =>
      simp only [hres, AEResult.isError]
      constructor
      · rintro ⟨h1, m, h2⟩
        exact absurd h2 (by simp)
      · intro hx
        exact absurd hx (by simp)

/-- Witness for C5: with the token unset the function returns the error dict
and no request is made; with token `tk` set and a non-JSON response `out`,
the result is a success wrapping `{'analysis': out}`, and the callback for
the non-blank description `hello` stores it rather than `None`. -/
theorem analyze_adverse_event_error_paths_witness :
    (analyze_adverse_event_with_databricks none "hello" ⟨some "out", none⟩).result
        = .error "DATABRICKS_TOKEN environment variable not set"
    ∧ (analyze_adverse_event_with_databricks (some "tk") "hello" ⟨some "out", none⟩).result
        = .success (.analysisText "out")
    ∧ ¬((analyze_adverse_event (some "hello") (some "tk") ⟨some "out", none⟩).1 = none
        ∧ ∃ m, (analyze_adverse_event (some "hello") (some "tk") ⟨some "out", none⟩).2
            = .errorShown m) := by
  refine ⟨?_, ?_, ?_⟩
  · exact ((analyze_adverse_event_error_paths none "hello" ⟨some "out", none⟩).1 rfl).1
  · exact (analyze_adverse_event_error_paths (some "tk") "hello"
      ⟨some "out", none⟩).2.2.1 "out" rfl rfl
  · intro hx
    have h := ((analyze_adverse_event_error_paths (some "tk") "hello"
      ⟨some "out", none⟩).2.2.2 "hello" rfl (by decide)).mp (by exact hx)
    have h2 := (analyze_adverse_event_error_paths (some "tk") "hello"
      ⟨some "out", none⟩).2.2.1 "out" rfl rfl
    rw [show pyStrip "hello" = "hello" from by decide] at h
    rw [h2] at h
    exact absurd h (by simp [AEResult.isError])
